import Mathlib

/-!
Shallow embedding of the historical & live spot price resolution engine of
stack-tracker-pro (backend/server.js) and of the ETF ratio calibration
service (backend/services/calibrateRatios.js).

Modelling conventions:
* Calendar dates are day numbers (`ℤ`); the JavaScript code compares dates
  via millisecond timestamps of `YYYY-MM-DD` strings, so a difference of
  `k` days corresponds to `k * 86400000` ms and the 30-day window
  `diff <= 30*24*60*60*1000` is exactly `|dayDiff| <= 30`.
* JavaScript numbers are modelled as `ℚ`; `parseFloat(x.toFixed(2))` is
  `round2` (round half up to two decimal places).
* JavaScript truthiness of a numeric table access (`obj[date]`) is
  "present and nonzero" (`truthyLookup`).
* External effects (fetches, database, clock) are explicit parameters.
-/

namespace StackTracker

/-- Result object produced by `getHistoricalPrice` in server.js:
`{price, source, note}`. -/
structure ResolvedPrice where
  price : ℚ
  source : String
  note : String
deriving Repr, DecidableEq

/-- The process-wide spot price cache of server.js:
`{silver, gold, timestamp}` where `timestamp` is `null` before the first
successful fetch. -/
structure SpotPriceCache where
  silver : ℚ
  gold : ℚ
  timestamp : Option ℤ
deriving Repr, DecidableEq

/-- Initial value of `spotPriceCache` in server.js (lines 432-436):
`{silver: 30.50, gold: 2650.00, timestamp: null}`. -/
def initialSpotPriceCache : SpotPriceCache :=
  { silver := 30.50, gold := 2650.00, timestamp := none }

/-- A date-keyed table (`historicalGoldPrices` / `historicalGoldSilverRatio`
in server.js), as an association list from day number to value. -/
abbrev PriceTable := List (ℤ × ℚ)

/-- Plain JS object access `obj[date]`: the value stored at the key, if any. -/
def tableLookup : PriceTable → ℤ → Option ℚ
  | [], _ => none
  | (d, v) :: rest, t => if d = t then some v else tableLookup rest t

/-- JS truthiness of `obj[date]` in a numeric table: the access is truthy
iff the key is present with a nonzero value. -/
def truthyLookup (tbl : PriceTable) (t : ℤ) : Option ℚ :=
  match tableLookup tbl t with
  | some v => if v = 0 then none else some v
  | none => none

/-- `parseFloat(x.toFixed(2))`: round to two decimal places (half up). -/
def round2 (q : ℚ) : ℚ := (round (q * 100) : ℚ) / 100

/-- `Object.keys(dataObj).sort()` over a date-keyed map: sort the entries by
key (lexicographic order on `YYYY-MM-DD` strings is chronological order). -/
def sortByDate (tbl : PriceTable) : PriceTable :=
  List.insertionSort (fun a b => a.1 ≤ b.1) tbl

/-- The scanning loop of `findNearestValue` in server.js: iterate over the
entries keeping the entry with the strictly smallest absolute day
difference seen so far (ties keep the earlier-seen entry); the accumulator
carries the current best entry together with its difference. -/
def scanNearest (target : ℤ) : PriceTable → Option ((ℤ × ℚ) × ℕ) → Option ((ℤ × ℚ) × ℕ)
  | [], acc => acc
  | (d, v) :: rest, acc =>
    let diff := (d - target).natAbs
    match acc with
    | none => scanNearest target rest (some ((d, v), diff))
    | some (_, bestDiff) =>
      if diff < bestDiff then scanNearest target rest (some ((d, v), diff))
      else scanNearest target rest acc

/-- `findNearestValue(dataObj, targetDate)` in server.js (lines 588-610):
scan all entries for the chronologically closest key, and return it only
if it is within 30 days of the target; otherwise (or on an empty table)
return `null`. -/
def findNearestValue (tbl : PriceTable) (target : ℤ) : Option (ℤ × ℚ) :=
  match scanNearest target (sortByDate tbl) none with
  | none => none
  | some (best, bestDiff) => if bestDiff ≤ 30 then some best else none

/-- `(metal || 'silver').toLowerCase()` at the top of `getHistoricalPrice`. -/
def effectiveMetal (metal : String) : String :=
  (if metal = "" then "silver" else metal).toLower

/-- The gold branch sequence of `getHistoricalPrice`: exact record, then
nearest record within 30 days, then live-cache fallback. -/
def goldHistorical (goldT : PriceTable) (cache : SpotPriceCache) (date : ℤ) :
    ResolvedPrice :=
  match truthyLookup goldT date with
  | some g =>
    { price := g, source := "exact",
      note := "Exact daily price from freegoldapi.com" }
  | none =>
    match findNearestValue goldT date with
    | some n =>
      { price := n.2, source := "nearest",
        note := "Nearest available date: " ++ toString n.1 }
    | none =>
      { price := cache.gold, source := "fallback",
        note := "Historical data unavailable - using current price" }

/-- The silver branch sequence of `getHistoricalPrice`: exact gold and exact
ratio, else exact gold with nearest ratio (or the typical ratio 80), else
nearest gold with nearest ratio (or 80), else live-cache fallback. -/
def silverHistorical (goldT ratioT : PriceTable) (cache : SpotPriceCache)
    (date : ℤ) : ResolvedPrice :=
  match truthyLookup goldT date, truthyLookup ratioT date with
  | some g, some r =>
    { price := round2 (g / r), source := "exact",
      note := "Calculated from exact gold price and gold/silver ratio" }
  | some g, none =>
    match findNearestValue ratioT date with
    | some nr =>
      { price := round2 (g / nr.2), source := "interpolated",
        note := "Gold price exact, ratio from " ++ toString nr.1 }
    | none =>
      { price := round2 (g / 80), source := "estimated",
        note := "Calculated from gold price with estimated ratio" }
  | none, _ =>
    match findNearestValue goldT date with
    | some ng =>
      let ratioToUse : ℚ :=
        match findNearestValue ratioT date with
        | some nr => nr.2
        | none => 80
      { price := round2 (ng.2 / ratioToUse), source := "interpolated",
        note := "Estimated from " ++ toString ng.1 ++ " gold price" }
    | none =>
      { price := cache.silver, source := "fallback",
        note := "Historical data unavailable - using current price" }

/-- `getHistoricalPrice(date, metal)` in server.js (lines 505-583),
parameterised by the two historical tables and the spot cache it reads.
For a metal type other than `gold` or `silver` every branch is skipped and
the final fallback returns the cached gold price
(`metalType === 'silver' ? spotPriceCache.silver : spotPriceCache.gold`). -/
def getHistoricalPrice (goldT ratioT : PriceTable) (cache : SpotPriceCache)
    (date : ℤ) (metal : String) : ResolvedPrice :=
  let metalType := effectiveMetal metal
  if metalType = "gold" then goldHistorical goldT cache date
  else if metalType = "silver" then silverHistorical goldT ratioT cache date
  else
    { price := cache.gold, source := "fallback",
      note := "Historical data unavailable - using current price" }

end StackTracker

namespace StackTracker

lemma effectiveMetal_gold_lit : effectiveMetal "gold" = "gold" := by
  simp [effectiveMetal, String.toLower, String.map_eq]

lemma effectiveMetal_silver_lit : effectiveMetal "silver" = "silver" := by
  simp [effectiveMetal, String.toLower, String.map_eq]

lemma truthyLookup_of_pos {tbl : PriceTable} {d : ℤ} {v : ℚ}
    (h : tableLookup tbl d = some v) (hpos : 0 < v) :
    truthyLookup tbl d = some v := by
  simp [truthyLookup, h, hpos.ne']

/-- C4: for every date with an exact (positive-price) gold record, the gold
resolver returns that table value unchanged with source `exact`. -/
theorem gold_exact_record (goldT ratioT : PriceTable) (cache : SpotPriceCache)
    (d : ℤ) (g : ℚ) (hg : tableLookup goldT d = some g) (hpos : 0 < g) :
    getHistoricalPrice goldT ratioT cache d "gold" =
      { price := g, source := "exact",
        note := "Exact daily price from freegoldapi.com" } := by
  have ht := truthyLookup_of_pos hg hpos
  simp [getHistoricalPrice, effectiveMetal_gold_lit, goldHistorical, ht]

theorem gold_exact_record_witness :
    tableLookup [((19832 : ℤ), (2391.50 : ℚ))] 19832 = some 2391.50 ∧
    (0 : ℚ) < 2391.50 ∧
    getHistoricalPrice [((19832 : ℤ), (2391.50 : ℚ))] [] initialSpotPriceCache 19832 "gold" =
      { price := 2391.50, source := "exact",
        note := "Exact daily price from freegoldapi.com" } :=
  ⟨by norm_num [tableLookup], by norm_num,
    gold_exact_record [(19832, 2391.50)] [] initialSpotPriceCache 19832 2391.50
      (by norm_num [tableLookup]) (by norm_num)⟩

/-- C1: for every date with both an exact gold record and an exact ratio
record, the silver resolver returns gold divided by ratio rounded to two
decimals, with source `exact`; on the concrete tables of the spec the
result is 28.30. -/
theorem silver_exact_from_gold_and_ratio (goldT ratioT : PriceTable)
    (cache : SpotPriceCache) (d : ℤ) (g r : ℚ)
    (hg : tableLookup goldT d = some g) (hgpos : 0 < g)
    (hr : tableLookup ratioT d = some r) (hrpos : 0 < r) :
    getHistoricalPrice goldT ratioT cache d "silver" =
      { price := round2 (g / r), source := "exact",
        note := "Calculated from exact gold price and gold/silver ratio" } := by
  have htg := truthyLookup_of_pos hg hgpos
  have htr := truthyLookup_of_pos hr hrpos
  simp [getHistoricalPrice, effectiveMetal_silver_lit, silverHistorical, htg, htr]

theorem silver_exact_from_gold_and_ratio_witness :
    tableLookup [((19832 : ℤ), (2391.50 : ℚ))] 19832 = some 2391.50 ∧
    tableLookup [((19832 : ℤ), (84.5 : ℚ))] 19832 = some 84.5 ∧
    getHistoricalPrice [((19832 : ℤ), (2391.50 : ℚ))] [((19832 : ℤ), (84.5 : ℚ))]
        initialSpotPriceCache 19832 "silver" =
      { price := 28.30, source := "exact",
        note := "Calculated from exact gold price and gold/silver ratio" } := by
  refine ⟨by norm_num [tableLookup], by norm_num [tableLookup], ?_⟩
  have h := silver_exact_from_gold_and_ratio [(19832, 2391.50)] [(19832, 84.5)]
    initialSpotPriceCache 19832 2391.50 84.5 (by norm_num [tableLookup]) (by norm_num)
    (by norm_num [tableLookup]) (by norm_num)
  rw [h]
  simp only [ResolvedPrice.mk.injEq]
  norm_num [round2, round_eq]

/-- C5: the resolver is total for gold and silver; when neither an exact
nor a nearest gold record applies it falls through to the `fallback` tier
reading the live spot cache, whose initial seed is silver 30.50 and gold
2650.00 with a null timestamp. -/
theorem resolver_never_fails (goldT ratioT : PriceTable) (cache : SpotPriceCache)
    (d : ℤ) (metal : String)
    (hm : metal = "gold" ∨ metal = "silver")
    (hg : truthyLookup goldT d = none)
    (hng : findNearestValue goldT d = none) :
    (∃ res, getHistoricalPrice goldT ratioT cache d metal = res) ∧
    getHistoricalPrice goldT ratioT cache d metal =
      { price := if metal = "silver" then cache.silver else cache.gold,
        source := "fallback",
        note := "Historical data unavailable - using current price" } ∧
    initialSpotPriceCache =
      { silver := 30.50, gold := 2650.00, timestamp := none } := by
  refine ⟨⟨_, rfl⟩, ?_, rfl⟩
  rcases hm with h | h <;> subst h
  · simp [getHistoricalPrice, effectiveMetal_gold_lit, goldHistorical, hg, hng]
  · simp [getHistoricalPrice, effectiveMetal_silver_lit, silverHistorical, hg, hng]

theorem resolver_never_fails_witness :
    ((("gold" : String) = "gold" ∨ ("gold" : String) = "silver") ∧
      truthyLookup [] 0 = none ∧ findNearestValue [] 0 = none) ∧
    getHistoricalPrice [] [] initialSpotPriceCache 0 "gold" =
      { price := 2650.00, source := "fallback",
        note := "Historical data unavailable - using current price" } := by
  refine ⟨⟨Or.inl rfl, rfl, rfl⟩, ?_⟩
  have h := (resolver_never_fails [] [] initialSpotPriceCache 0 "gold"
    (Or.inl rfl) rfl rfl).2.1
  rw [h]
  simp [initialSpotPriceCache]

end StackTracker

namespace StackTracker

lemma scanNearest_diff (target : ℤ) (l : PriceTable) :
    ∀ (acc : Option ((ℤ × ℚ) × ℕ)),
      (∀ q dq, acc = some (q, dq) → dq = (q.1 - target).natAbs) →
      ∀ p dp, scanNearest target l acc = some (p, dp) → dp = (p.1 - target).natAbs := by
  induction l with
  | nil => intro acc hacc p dp h; exact hacc p dp h
  | cons x rest ih =>
    intro acc hacc p dp h
    obtain ⟨d, v⟩ := x
    rcases acc with _ | ⟨b, bd⟩
    · simp only [scanNearest] at h
      refine ih _ ?_ p dp h
      rintro q dq hq
      injection hq with hq
      injection hq with hq1 hq2
      subst hq1
      subst hq2
      rfl
    · simp only [scanNearest] at h
      split at h
      · refine ih _ ?_ p dp h
        rintro q dq hq
        injection hq with hq
        injection hq with hq1 hq2
        subst hq1
        subst hq2
        rfl
      · exact ih _ hacc p dp h

lemma scanNearest_lowerBound (target : ℤ) (n : ℕ) (l : PriceTable) :
    ∀ (acc : Option ((ℤ × ℚ) × ℕ)),
      (∀ p ∈ l, n ≤ (p.1 - target).natAbs) →
      (∀ q dq, acc = some (q, dq) → n ≤ dq) →
      ∀ p dp, scanNearest target l acc = some (p, dp) → n ≤ dp := by
  induction l with
  | nil => intro acc _ hacc p dp h; exact hacc p dp h
  | cons x rest ih =>
    intro acc hl hacc p dp h
    obtain ⟨d, v⟩ := x
    have hd : n ≤ (d - target).natAbs := hl (d, v) (List.mem_cons_self _ _)
    have hrest : ∀ p ∈ rest, n ≤ (p.1 - target).natAbs :=
      fun p hp => hl p (List.mem_cons_of_mem _ hp)
    rcases acc with _ | ⟨b, bd⟩
    · simp only [scanNearest] at h
      refine ih _ hrest ?_ p dp h
      rintro q dq hq
      injection hq with hq
      injection hq with hq1 hq2
      subst hq2
      exact hd
    · simp only [scanNearest] at h
      split at h
      · refine ih _ hrest ?_ p dp h
        rintro q dq hq
        injection hq with hq
        injection hq with hq1 hq2
        subst hq2
        exact hd
      · exact ih _ hrest hacc p dp h

/-- C3: the nearest-date lookup never returns an entry more than 30 days
from the query date, and when every key of the table is at least 31 days
away it returns `none`. -/
theorem nearest_lookup_within_30_days (tbl : PriceTable) (target : ℤ) :
    (∀ d v, findNearestValue tbl target = some (d, v) → (d - target).natAbs ≤ 30) ∧
    ((∀ p ∈ tbl, 31 ≤ (p.1 - target).natAbs) → findNearestValue tbl target = none) := by
  constructor
  · intro d v h
    unfold findNearestValue at h
    split at h
    · exact Option.noConfusion h
    · rename_i best bd hs
      split at h
      · rename_i hle
        injection h with h
        subst h
        have hdiff := scanNearest_diff target (sortByDate tbl) none (by simp) _ _ hs
        simp only at hdiff
        omega
      · exact Option.noConfusion h
  · intro hfar
    unfold findNearestValue
    split
    · rfl
    · rename_i best bd hs
      have hmem : ∀ p ∈ sortByDate tbl, 31 ≤ (p.1 - target).natAbs := by
        intro p hp
        exact hfar p ((List.perm_insertionSort _ tbl).mem_iff.mp hp)
      have h31 := scanNearest_lowerBound target 31 (sortByDate tbl) none hmem
        (by simp) best bd hs
      rw [if_neg (by omega)]

theorem nearest_lookup_within_30_days_witness :
    (∀ p ∈ [((0 : ℤ), (1 : ℚ))], 31 ≤ (p.1 - 40).natAbs) ∧
    findNearestValue [((0 : ℤ), (1 : ℚ))] 40 = none := by
  have hfar : ∀ p ∈ [((0 : ℤ), (1 : ℚ))], 31 ≤ (p.1 - 40).natAbs := by
    intro p hp
    simp only [List.mem_singleton] at hp
    subst hp
    norm_num
  exact ⟨hfar, (nearest_lookup_within_30_days [(0, 1)] 40).2 hfar⟩

/-- C2: the silver resolver's non-exact tiers: with an exact gold record
but no exact ratio it divides by the nearest ratio within 30 days
(`interpolated`), or by 80 when none is near (`estimated`); with no exact
gold record but a gold record within 30 days it divides that nearest gold
by the nearest ratio within 30 days, defaulting to 80 (`interpolated`). -/
theorem silver_interpolation_tiers (goldT ratioT : PriceTable)
    (cache : SpotPriceCache) (d : ℤ) :
    (∀ g, truthyLookup goldT d = some g → truthyLookup ratioT d = none →
      (∀ rd rv, findNearestValue ratioT d = some (rd, rv) →
        getHistoricalPrice goldT ratioT cache d "silver" =
          { price := round2 (g / rv), source := "interpolated",
            note := "Gold price exact, ratio from " ++ toString rd }) ∧
      (findNearestValue ratioT d = none →
        getHistoricalPrice goldT ratioT cache d "silver" =
          { price := round2 (g / 80), source := "estimated",
            note := "Calculated from gold price with estimated ratio" })) ∧
    (∀ gd gv, truthyLookup goldT d = none →
      findNearestValue goldT d = some (gd, gv) →
      getHistoricalPrice goldT ratioT cache d "silver" =
        { price := round2 (gv / (((findNearestValue ratioT d).map Prod.snd).getD 80)),
          source := "interpolated",
          note := "Estimated from " ++ toString gd ++ " gold price" }) := by
  constructor
  · intro g hg hr
    constructor
    · intro rd rv hnr
      simp [getHistoricalPrice, effectiveMetal_silver_lit, silverHistorical, hg, hr, hnr]
    · intro hnr
      simp [getHistoricalPrice, effectiveMetal_silver_lit, silverHistorical, hg, hr, hnr]
  · intro gd gv hg hng
    cases hnr : findNearestValue ratioT d with
    | none =>
      simp [getHistoricalPrice, effectiveMetal_silver_lit, silverHistorical, hg, hng, hnr]
    | some nr =>
      simp [getHistoricalPrice, effectiveMetal_silver_lit, silverHistorical, hg, hng, hnr]

theorem silver_interpolation_tiers_witness :
    truthyLookup [((0 : ℤ), (2400 : ℚ))] 0 = some 2400 ∧
    truthyLookup [((5 : ℤ), (80 : ℚ))] 0 = none ∧
    findNearestValue [((5 : ℤ), (80 : ℚ))] 0 = some (5, 80) ∧
    getHistoricalPrice [((0 : ℤ), (2400 : ℚ))] [((5 : ℤ), (80 : ℚ))]
        initialSpotPriceCache 0 "silver" =
      { price := 30, source := "interpolated",
        note := "Gold price exact, ratio from " ++ toString (5 : ℤ) } := by
  have h1 : truthyLookup [((0 : ℤ), (2400 : ℚ))] 0 = some 2400 := by
    norm_num [truthyLookup, tableLookup]
  have h2 : truthyLookup [((5 : ℤ), (80 : ℚ))] 0 = none := by
    norm_num [truthyLookup, tableLookup]
  have h3 : findNearestValue [((5 : ℤ), (80 : ℚ))] 0 = some (5, 80) := by
    norm_num [findNearestValue, sortByDate, scanNearest, List.insertionSort,
      List.orderedInsert]
  refine ⟨h1, h2, h3, ?_⟩
  have h := ((silver_interpolation_tiers [(0, 2400)] [(5, 80)]
    initialSpotPriceCache 0).1 2400 h1 h2).1 5 80 h3
  rw [h]
  simp only [ResolvedPrice.mk.injEq]
  norm_num [round2, round_eq]

end StackTracker

namespace StackTracker

/-- JSON body of a `GET /api/spot-prices` response:
`{success, silver, gold, timestamp?, cached?, note?}` (the timestamp string
is not modelled; `cached` is absent-or-true, modelled as a `Bool`). -/
structure SpotPricesResponse where
  success : Bool
  silver : ℚ
  gold : ℚ
  cached : Bool
  note : Option String
deriving Repr, DecidableEq

/-- The 5-minute TTL check at the top of the handler:
`spotPriceCache.timestamp && (now - spotPriceCache.timestamp) < 5*60*1000`
(a null timestamp is falsy, so the cache counts as stale). -/
def cacheFresh (cache : SpotPriceCache) (now : ℤ) : Bool :=
  match cache.timestamp with
  | some ts => decide (now - ts < 5 * 60 * 1000)
  | none => false

/-- The `GET /api/spot-prices` handler of server.js (lines 810-872).
`fetched` models the outcome of the external fetch already reduced to the
handler's view: `none` when the request throws, times out, or the response
is not ok; `some (s, g)` when an ok JSON body was parsed, where `s` and `g`
are the extracted per-metal prices after the `|| null` coercions (so `none`
for a missing, null, zero or malformed field).  Returns the HTTP response
together with the cache left behind by the handler. -/
def spotPricesEndpoint (cache : SpotPriceCache) (now : ℤ)
    (fetched : Option (Option ℚ × Option ℚ)) :
    SpotPricesResponse × SpotPriceCache :=
  if cacheFresh cache now then
    ({ success := true, silver := cache.silver, gold := cache.gold,
       cached := true, note := none }, cache)
  else
    match fetched with
    | some (some s, some g) =>
      ({ success := true, silver := s, gold := g, cached := false, note := none },
       { silver := s, gold := g, timestamp := some now })
    | _ =>
      ({ success := true, silver := cache.silver, gold := cache.gold,
         cached := true,
         note := some "Using cached prices - live API temporarily unavailable" },
       cache)

/-- C6: with a stale cache (5 minutes or older) and a failed, timed-out or
partial fetch, the endpoint still answers success with the previously
cached values, `cached = true` and a note, leaving the cache unchanged;
and the cache is mutated only by a fetch that produced both metals. -/
theorem spot_prices_stale_fetch_failure (cache : SpotPriceCache) (now ts : ℤ)
    (fetched : Option (Option ℚ × Option ℚ))
    (hts : cache.timestamp = some ts)
    (hstale : 5 * 60 * 1000 ≤ now - ts)
    (hfail : ∀ s g, fetched ≠ some (some s, some g)) :
    spotPricesEndpoint cache now fetched =
      ({ success := true, silver := cache.silver, gold := cache.gold,
         cached := true,
         note := some "Using cached prices - live API temporarily unavailable" },
       cache) ∧
    ∀ (c : SpotPriceCache) (n : ℤ) (f : Option (Option ℚ × Option ℚ)),
      (spotPricesEndpoint c n f).2 ≠ c → ∃ s g, f = some (some s, some g) := by
  constructor
  · unfold spotPricesEndpoint
    split
    · rename_i hfr
      exfalso
      unfold cacheFresh at hfr
      rw [hts] at hfr
      simp only [decide_eq_true_eq] at hfr
      omega
    · rcases fetched with _ | ⟨os, og⟩
      · rfl
      · rcases os with _ | s
        · rfl
        · rcases og with _ | g
          · rfl
          · exact absurd rfl (hfail s g)
  · intro c n f hne
    rcases f with _ | ⟨os, og⟩
    · exfalso
      apply hne
      unfold spotPricesEndpoint
      split <;> rfl
    · rcases os with _ | s
      · exfalso
        apply hne
        unfold spotPricesEndpoint
        split <;> rfl
      · rcases og with _ | g
        · exfalso
          apply hne
          unfold spotPricesEndpoint
          split <;> rfl
        · exact ⟨s, g, rfl⟩

theorem spot_prices_stale_fetch_failure_witness :
    ((initialSpotPriceCache.silver, initialSpotPriceCache.gold, some (600000 : ℤ)) =
      ((30.50 : ℚ), (2650.00 : ℚ), some (600000 : ℤ))) ∧
    spotPricesEndpoint { silver := 31, gold := 2700, timestamp := some 0 }
        600000 none =
      ({ success := true, silver := 31, gold := 2700, cached := true,
         note := some "Using cached prices - live API temporarily unavailable" },
       { silver := 31, gold := 2700, timestamp := some 0 }) := by
  refine ⟨by norm_num [initialSpotPriceCache], ?_⟩
  exact (spot_prices_stale_fetch_failure
    { silver := 31, gold := 2700, timestamp := some 0 } 600000 0 none rfl
    (by norm_num) (by intro s g h; exact Option.noConfusion h)).1

end StackTracker

namespace StackTracker

/-- A persisted row of the `etf_ratios` table, as upserted by
`calibrateRatios` (the `updated_at` timestamp column carries no logic and
is not modelled). -/
structure CalibrationRecord where
  date : ℤ
  slv_ratio : ℚ
  gld_ratio : ℚ
  slv_price : ℚ
  gld_price : ℚ
  gold_spot : ℚ
  silver_spot : ℚ
deriving Repr, DecidableEq

/-- The hardcoded default ratios `DEFAULT_SLV_RATIO` / `DEFAULT_GLD_RATIO`
imported from services/etfPrices.js; their numeric values play no role, so
they are kept abstract as parameters. -/
structure RatioDefaults where
  slv : ℚ
  gld : ℚ
deriving Repr, DecidableEq

/-- The in-memory `ratioCache` of calibrateRatios.js:
`{date, slvRatio, gldRatio}` with `date` initially `null`. -/
structure RatioCache where
  date : Option ℤ
  slvRatio : ℚ
  gldRatio : ℚ
deriving Repr, DecidableEq

/-- The state the calibration service touches: the in-memory cache and the
persisted `etf_ratios` table. -/
structure CalibState where
  cache : RatioCache
  store : List CalibrationRecord
deriving Repr, DecidableEq

/-- The initial `ratioCache`: `{date: null, slvRatio: DEFAULT_SLV_RATIO,
gldRatio: DEFAULT_GLD_RATIO}`. -/
def initialRatioCache (defaults : RatioDefaults) : RatioCache :=
  { date := none, slvRatio := defaults.slv, gldRatio := defaults.gld }

/-- Result of `getCurrentETFQuotes()`: each quote is `none` when the
corresponding ETF price is unavailable (`!quotes.slv || !quotes.gld`). -/
structure ETFQuotes where
  slv : Option ℚ
  gld : Option ℚ
deriving Repr, DecidableEq

/-- The object returned by a successful `calibrateRatios` call:
`{slvRatio, gldRatio, slvPrice, gldPrice}`. -/
structure CalibrationResult where
  slvRatio : ℚ
  gldRatio : ℚ
  slvPrice : ℚ
  gldPrice : ℚ
deriving Repr, DecidableEq

/-- `upsert(..., {onConflict: 'date'})`: replace the row with the same date
if one exists, otherwise append. -/
def upsertRecord (store : List CalibrationRecord) (rec : CalibrationRecord) :
    List CalibrationRecord :=
  if store.any (fun r => r.date = rec.date) then
    store.map (fun r => if r.date = rec.date then rec else r)
  else store ++ [rec]

/-- `calibrateRatios(currentGoldSpot, currentSilverSpot)` in
calibrateRatios.js (lines 30-86).  `quotes` is the fetched ETF quote pair,
`today` the current date, `dbAvailable` whether Supabase is configured and
`persistFails` whether the upsert reports an error (in which case the
error is logged and swallowed).  Returns the JS return value and the state
left behind. -/
def calibrateRatios (st : CalibState) (quotes : ETFQuotes) (today : ℤ)
    (dbAvailable : Bool) (persistFails : Bool)
    (currentGoldSpot currentSilverSpot : ℚ) :
    Option CalibrationResult × CalibState :=
  match quotes.slv, quotes.gld with
  | some slvPrice, some gldPrice =>
    let slvRatio := slvPrice / currentSilverSpot
    let gldRatio := gldPrice / currentGoldSpot
    let newCache : RatioCache :=
      { date := some today, slvRatio := slvRatio, gldRatio := gldRatio }
    let newStore :=
      if dbAvailable && !persistFails then
        upsertRecord st.store
          { date := today, slv_ratio := slvRatio, gld_ratio := gldRatio,
            slv_price := slvPrice, gld_price := gldPrice,
            gold_spot := currentGoldSpot, silver_spot := currentSilverSpot }
      else st.store
    (some { slvRatio := slvRatio, gldRatio := gldRatio,
            slvPrice := slvPrice, gldPrice := gldPrice },
     { cache := newCache, store := newStore })
  | _, _ => (none, st)

/-- One step of the maximum-date selection implementing the storage query
(keeps the first-seen row among equal dates). -/
def betterRecord (acc : Option CalibrationRecord) (r : CalibrationRecord) :
    Option CalibrationRecord :=
  match acc with
  | none => some r
  | some b => if b.date < r.date then some r else some b

/-- The storage query of `getRatioForDate`:
`.lte('date', d).order('date', descending).limit(1).single()` — the most
recent record dated on or before `d`, or `none` when no row matches
(`.single()` errors on zero rows, which the caller turns into the default
branch). -/
def latestOnOrBefore (store : List CalibrationRecord) (d : ℤ) :
    Option CalibrationRecord :=
  (store.filter (fun r => r.date ≤ d)).foldl betterRecord none

/-- `getRatioForDate(dateString)` in calibrateRatios.js (lines 95-132):
in-memory cache hit first, then the most recent persisted record on or
before the date, then the hardcoded defaults. -/
def getRatioForDate (defaults : RatioDefaults) (st : CalibState)
    (dbAvailable : Bool) (d : ℤ) : ℚ × ℚ :=
  if st.cache.date = some d then (st.cache.slvRatio, st.cache.gldRatio)
  else if dbAvailable then
    match latestOnOrBefore st.store d with
    | some r => (r.slv_ratio, r.gld_ratio)
    | none => (defaults.slv, defaults.gld)
  else (defaults.slv, defaults.gld)

/-- C7: when either ETF quote is unavailable, `calibrateRatios` returns
`null` and leaves the in-memory cache and the persisted records exactly as
they were. -/
theorem calibrate_null_on_missing_quote (st : CalibState) (quotes : ETFQuotes)
    (today : ℤ) (dbAvailable persistFails : Bool) (gs ss : ℚ)
    (h : quotes.slv = none ∨ quotes.gld = none) :
    calibrateRatios st quotes today dbAvailable persistFails gs ss = (none, st) := by
  obtain ⟨oslv, ogld⟩ := quotes
  rcases oslv with _ | s <;> rcases ogld with _ | g
  · rfl
  · rfl
  · rfl
  · rcases h with h | h <;> simp at h

theorem calibrate_null_on_missing_quote_witness :
    ((⟨none, some 246.9⟩ : ETFQuotes).slv = none ∨
      (⟨none, some 246.9⟩ : ETFQuotes).gld = none) ∧
    calibrateRatios ⟨⟨none, 1, 1⟩, []⟩ ⟨none, some 246.9⟩ 0 true false 2650 30.5 =
      (none, ⟨⟨none, 1, 1⟩, []⟩) :=
  ⟨Or.inl rfl,
    calibrate_null_on_missing_quote ⟨⟨none, 1, 1⟩, []⟩ ⟨none, some 246.9⟩ 0
      true false 2650 30.5 (Or.inl rfl)⟩

/-- C8: with both quotes available, `calibrateRatios` computes
`slvRatio = slvPrice / silverSpot` and `gldRatio = gldPrice / goldSpot`,
updates the in-memory cache unconditionally, and returns the computed
ratios even when persistence fails. -/
theorem calibrate_computes_and_caches (st : CalibState) (quotes : ETFQuotes)
    (today : ℤ) (dbAvailable persistFails : Bool) (gs ss slvP gldP : ℚ)
    (hs : quotes.slv = some slvP) (hg : quotes.gld = some gldP) :
    (calibrateRatios st quotes today dbAvailable persistFails gs ss).1 =
      some { slvRatio := slvP / ss, gldRatio := gldP / gs,
             slvPrice := slvP, gldPrice := gldP } ∧
    (calibrateRatios st quotes today dbAvailable persistFails gs ss).2.cache =
      { date := some today, slvRatio := slvP / ss, gldRatio := gldP / gs } := by
  obtain ⟨oslv, ogld⟩ := quotes
  simp only at hs hg
  subst hs
  subst hg
  exact ⟨rfl, rfl⟩

theorem calibrate_computes_and_caches_witness :
    (⟨some 28.10, some 246.9⟩ : ETFQuotes).slv = some 28.10 ∧
    (⟨some 28.10, some 246.9⟩ : ETFQuotes).gld = some 246.9 ∧
    (calibrateRatios ⟨⟨none, 1, 1⟩, []⟩ ⟨some 28.10, some 246.9⟩ 0 true true
        2650 30.5).1 =
      some { slvRatio := (28.10 : ℚ) / 30.5, gldRatio := (246.9 : ℚ) / 2650,
             slvPrice := 28.10, gldPrice := 246.9 } ∧
    (calibrateRatios ⟨⟨none, 1, 1⟩, []⟩ ⟨some 28.10, some 246.9⟩ 0 true true
        2650 30.5).2.cache =
      { date := some 0, slvRatio := (28.10 : ℚ) / 30.5,
        gldRatio := (246.9 : ℚ) / 2650 } ∧
    |((28.10 : ℚ) / 30.5) - 0.9213| < 0.0001 ∧
    |((246.9 : ℚ) / 2650) - 0.09317| < 0.00001 := by
  have h := calibrate_computes_and_caches ⟨⟨none, 1, 1⟩, []⟩
    ⟨some 28.10, some 246.9⟩ 0 true true 2650 30.5 28.10 246.9 rfl rfl
  refine ⟨rfl, rfl, h.1, h.2, ?_, ?_⟩
  · rw [abs_sub_lt_iff]
    constructor <;> norm_num
  · rw [abs_sub_lt_iff]
    constructor <;> norm_num

end StackTracker

namespace StackTracker

lemma foldl_betterRecord_max (l : List CalibrationRecord) :
    ∀ (acc : Option CalibrationRecord) (r : CalibrationRecord),
      l.foldl betterRecord acc = some r →
      (∀ x ∈ l, x.date ≤ r.date) ∧ (∀ b, acc = some b → b.date ≤ r.date) := by
  induction l with
  | nil =>
    intro acc r h
    refine ⟨fun x hx => absurd hx (List.not_mem_nil x), ?_⟩
    intro b hb
    rw [hb] at h
    injection h with h
    rw [h]
  | cons x xs ih =>
    intro acc r h
    obtain ⟨hxs, haccb⟩ := ih (betterRecord acc x) r h
    have hkey : x.date ≤ r.date ∧ (∀ b, acc = some b → b.date ≤ r.date) := by
      rcases acc with _ | b
      · exact ⟨haccb x rfl, fun b hb => Option.noConfusion hb⟩
      · by_cases hlt : b.date < x.date
        · have hx := haccb x (if_pos hlt)
          refine ⟨hx, ?_⟩
          intro b' hb'
          injection hb' with hb'
          subst hb'
          omega
        · have hb := haccb b (if_neg hlt)
          refine ⟨by omega, ?_⟩
          intro b' hb'
          injection hb' with hb'
          subst hb'
          exact hb
    refine ⟨?_, hkey.2⟩
    intro y hy
    rcases List.mem_cons.mp hy with rfl | hy
    · exact hkey.1
    · exact hxs y hy

lemma foldl_betterRecord_mem (l : List CalibrationRecord) :
    ∀ (acc : Option CalibrationRecord) (r : CalibrationRecord),
      l.foldl betterRecord acc = some r → r ∈ l ∨ acc = some r := by
  induction l with
  | nil => intro acc r h; exact Or.inr h
  | cons x xs ih =>
    intro acc r h
    rcases ih (betterRecord acc x) r h with hmem | hacc
    · exact Or.inl (List.mem_cons_of_mem _ hmem)
    · rcases acc with _ | b
      · injection hacc with hacc
        subst hacc
        exact Or.inl (List.mem_cons_self _ _)
      · have hacc2 : (if b.date < x.date then some x else some b) = some r := hacc
        by_cases hlt : b.date < x.date
        · rw [if_pos hlt] at hacc2
          injection hacc2 with he
          subst he
          exact Or.inl (List.mem_cons_self _ _)
        · rw [if_neg hlt] at hacc2
          exact Or.inr hacc2

lemma latestOnOrBefore_spec (store : List CalibrationRecord) (d : ℤ)
    (r : CalibrationRecord) (h : latestOnOrBefore store d = some r) :
    r ∈ store ∧ r.date ≤ d ∧ ∀ x ∈ store, x.date ≤ d → x.date ≤ r.date := by
  unfold latestOnOrBefore at h
  have hmem := foldl_betterRecord_mem _ _ _ h
  rcases hmem with hmem | hmem
  · have hf := List.mem_filter.mp hmem
    refine ⟨hf.1, by simpa using hf.2, ?_⟩
    intro x hx hxd
    exact (foldl_betterRecord_max _ _ _ h).1 x
      (List.mem_filter.mpr ⟨hx, by simpa using hxd⟩)
  · exact Option.noConfusion hmem

lemma latestOnOrBefore_none (store : List CalibrationRecord) (d : ℤ)
    (h : ∀ x ∈ store, d < x.date) :
    latestOnOrBefore store d = none := by
  unfold latestOnOrBefore
  have hnil : store.filter (fun r => r.date ≤ d) = [] := by
    rw [List.filter_eq_nil_iff]
    intro a ha
    simpa using (h a ha).not_le
  rw [hnil]
  rfl

/-- C9: `getRatioForDate` resolves in strict order: the in-memory cache
when its date matches; otherwise the most recent stored record on or
before the date (never one dated after it); otherwise — in particular for
any date before the first calibration — the hardcoded defaults. -/
theorem ratio_for_date_resolution (defaults : RatioDefaults) (st : CalibState)
    (dbAvailable : Bool) (d : ℤ) :
    (st.cache.date = some d →
      getRatioForDate defaults st dbAvailable d =
        (st.cache.slvRatio, st.cache.gldRatio)) ∧
    (st.cache.date ≠ some d → dbAvailable = true →
      ∀ r, latestOnOrBefore st.store d = some r →
        getRatioForDate defaults st dbAvailable d = (r.slv_ratio, r.gld_ratio) ∧
        r.date ≤ d ∧ ∀ x ∈ st.store, x.date ≤ d → x.date ≤ r.date) ∧
    (st.cache.date ≠ some d → (∀ x ∈ st.store, d < x.date) →
      getRatioForDate defaults st dbAvailable d =
        (defaults.slv, defaults.gld)) := by
  refine ⟨?_, ?_, ?_⟩
  · intro h
    unfold getRatioForDate
    rw [if_pos h]
  · intro hne hdb r hr
    obtain ⟨hmem, hle, hmax⟩ := latestOnOrBefore_spec st.store d r hr
    refine ⟨?_, hle, hmax⟩
    unfold getRatioForDate
    rw [if_neg hne, hdb, if_pos rfl, hr]
  · intro hne hafter
    unfold getRatioForDate
    rw [if_neg hne]
    rcases dbAvailable with _ | _
    · rw [if_neg (by simp)]
    · rw [if_pos rfl, latestOnOrBefore_none st.store d hafter]

theorem ratio_for_date_resolution_witness :
    ((⟨⟨some 5, 9, 9⟩, [⟨1, 2, 3, 0, 0, 0, 0⟩, ⟨4, 7, 8, 0, 0, 0, 0⟩,
        ⟨10, 5, 6, 0, 0, 0, 0⟩]⟩ : CalibState).cache.date ≠ some 6) ∧
    latestOnOrBefore [⟨1, 2, 3, 0, 0, 0, 0⟩, ⟨4, 7, 8, 0, 0, 0, 0⟩,
        ⟨10, 5, 6, 0, 0, 0, 0⟩] 6 = some ⟨4, 7, 8, 0, 0, 0, 0⟩ ∧
    getRatioForDate ⟨1, 1⟩ ⟨⟨some 5, 9, 9⟩, [⟨1, 2, 3, 0, 0, 0, 0⟩,
        ⟨4, 7, 8, 0, 0, 0, 0⟩, ⟨10, 5, 6, 0, 0, 0, 0⟩]⟩ true 6 = (7, 8) := by
  have h1 : ((⟨⟨some 5, 9, 9⟩, [⟨1, 2, 3, 0, 0, 0, 0⟩, ⟨4, 7, 8, 0, 0, 0, 0⟩,
      ⟨10, 5, 6, 0, 0, 0, 0⟩]⟩ : CalibState).cache.date ≠ some 6) := by
    simp
  have h2 : latestOnOrBefore [(⟨1, 2, 3, 0, 0, 0, 0⟩ : CalibrationRecord),
      ⟨4, 7, 8, 0, 0, 0, 0⟩, ⟨10, 5, 6, 0, 0, 0, 0⟩] 6 =
      some ⟨4, 7, 8, 0, 0, 0, 0⟩ := by
    norm_num [latestOnOrBefore, List.filter, betterRecord]
  refine ⟨h1, h2, ?_⟩
  exact ((ratio_for_date_resolution ⟨1, 1⟩ ⟨⟨some 5, 9, 9⟩,
    [⟨1, 2, 3, 0, 0, 0, 0⟩, ⟨4, 7, 8, 0, 0, 0, 0⟩, ⟨10, 5, 6, 0, 0, 0, 0⟩]⟩
    true 6).2.1 h1 rfl ⟨4, 7, 8, 0, 0, 0, 0⟩ h2).1

end StackTracker

namespace StackTracker

/-- Response of `POST /api/historical-spot/bulk`: `{success, metal, prices}`
with `prices` keyed by the well-formed request dates. -/
structure BulkResponse where
  success : Bool
  metal : String
  prices : List (ℤ × ℚ)
deriving Repr, DecidableEq

/-- The `POST /api/historical-spot/bulk` handler of server.js (lines
920-945), given a body whose `dates` field is an array: `some d` stands
for an entry matching `^\d{4}-\d{2}-\d{2}$` parsed to a day number, `none`
for a malformed entry (silently skipped); the list is capped to its first
100 entries; `metal` undergoes `(metal || 'silver').toLowerCase()` and is
never validated against the two known metals. -/
def bulkHistoricalEndpoint (goldT ratioT : PriceTable) (cache : SpotPriceCache)
    (dates : List (Option ℤ)) (metal : String) : BulkResponse :=
  let metalType := effectiveMetal metal
  { success := true, metal := metalType,
    prices := (dates.take 100).filterMap (fun od =>
      od.map (fun d =>
        (d, (getHistoricalPrice goldT ratioT cache d metalType).price))) }

lemma char_toLower_idem (c : Char) : c.toLower.toLower = c.toLower := by
  unfold Char.toLower
  by_cases h : c.toNat ≥ 65 ∧ c.toNat ≤ 90
  · rw [if_pos h]
    have hv : (c.toNat + 32).isValidChar := Or.inl (by omega)
    have ht : (Char.ofNat (c.toNat + 32)).toNat = c.toNat + 32 := by
      unfold Char.ofNat
      rw [dif_pos hv]
      rfl
    rw [ht, if_neg (by omega)]
  · rw [if_neg h, if_neg h]

lemma toLower_idem (s : String) : s.toLower.toLower = s.toLower := by
  simp only [String.toLower, String.map_eq]
  show (⟨((s.data.map Char.toLower).map Char.toLower)⟩ : String) = _
  congr 1
  rw [List.map_map]
  exact List.map_congr_left (fun c _ => char_toLower_idem c)

lemma toLower_ne_empty {s : String} (h : s ≠ "") : s.toLower ≠ "" := by
  simp only [String.toLower, String.map_eq]
  intro hc
  apply h
  have hd : s.data.map Char.toLower = [] := congrArg String.data hc
  have : s.data = [] := List.map_eq_nil_iff.mp hd
  cases s
  simp_all

lemma effectiveMetal_empty : effectiveMetal "" = "silver" := by
  unfold effectiveMetal
  rw [if_pos rfl]
  simp [String.toLower, String.map_eq]

/-- C10 (amended): the bulk endpoint performs no metal validation — for a
non-empty metal string whose lower-casing is neither `gold` nor `silver`,
it succeeds and maps every well-formed date of the first-100-capped list
to the cached gold spot price via the resolver's final fallback tier,
whatever the historical tables contain.  (The empty string is excluded:
`metal || 'silver'` replaces it by `silver`.) -/
theorem bulk_unvalidated_metal_fallback (goldT ratioT : PriceTable)
    (cache : SpotPriceCache) (dates : List (Option ℤ)) (metal : String)
    (hne : metal ≠ "")
    (hg : metal.toLower ≠ "gold") (hsv : metal.toLower ≠ "silver") :
    bulkHistoricalEndpoint goldT ratioT cache dates metal =
      { success := true, metal := metal.toLower,
        prices := (dates.take 100).filterMap (fun od =>
          od.map (fun d => (d, cache.gold))) } := by
  have hm : effectiveMetal metal = metal.toLower := by
    unfold effectiveMetal
    rw [if_neg hne]
  have hm2 : effectiveMetal metal.toLower = metal.toLower := by
    unfold effectiveMetal
    rw [if_neg (toLower_ne_empty hne), toLower_idem]
  have hresolve : ∀ d : ℤ,
      (getHistoricalPrice goldT ratioT cache d metal.toLower).price =
        cache.gold := by
    intro d
    unfold getHistoricalPrice
    rw [hm2, if_neg hg, if_neg hsv]
  unfold bulkHistoricalEndpoint
  simp only [hm, hresolve]

theorem bulk_unvalidated_metal_fallback_witness :
    (("platinum" : String) ≠ "" ∧ ("platinum" : String).toLower ≠ "gold" ∧
      ("platinum" : String).toLower ≠ "silver") ∧
    bulkHistoricalEndpoint [((0 : ℤ), (2391.50 : ℚ))] [((0 : ℤ), (84.5 : ℚ))]
        initialSpotPriceCache [some 0, none, some 3] "platinum" =
      { success := true, metal := "platinum",
        prices := [((0 : ℤ), (2650.00 : ℚ)), ((3 : ℤ), (2650.00 : ℚ))] } := by
  have hpl : ("platinum" : String).toLower = "platinum" := by
    simp [String.toLower, String.map_eq]
  have h1 : ("platinum" : String) ≠ "" := by simp
  have h2 : ("platinum" : String).toLower ≠ "gold" := by rw [hpl]; simp
  have h3 : ("platinum" : String).toLower ≠ "silver" := by rw [hpl]; simp
  refine ⟨⟨h1, h2, h3⟩, ?_⟩
  have h := bulk_unvalidated_metal_fallback [(0, 2391.50)] [(0, 84.5)]
    initialSpotPriceCache [some 0, none, some 3] "platinum" h1 h2 h3
  rw [h, hpl]
  norm_num [initialSpotPriceCache, List.take_of_length_le, List.filterMap_cons]

/-- C10 as stated is refuted by the empty metal string: `""` lower-cases
to `""`, which is neither `gold` nor `silver`, yet `metal || 'silver'`
turns it into a silver query, so with historical data present the bulk
result is the derived silver price, not the cached gold spot. -/
theorem bulk_empty_metal_counterexample :
    ("" : String).toLower ≠ "gold" ∧ ("" : String).toLower ≠ "silver" ∧
    initialSpotPriceCache.gold = 2650.00 ∧
    (bulkHistoricalEndpoint [((0 : ℤ), (2391.50 : ℚ))] [((0 : ℤ), (84.5 : ℚ))]
        initialSpotPriceCache [some 0] "").prices = [((0 : ℤ), (28.30 : ℚ))] ∧
    ((28.30 : ℚ) ≠ 2650.00) := by
  have hlow : ("" : String).toLower = "" := by
    simp [String.toLower, String.map_eq]
  have htg : truthyLookup [((0 : ℤ), (2391.50 : ℚ))] 0 = some 2391.50 := by
    norm_num [truthyLookup, tableLookup]
  have htr : truthyLookup [((0 : ℤ), (84.5 : ℚ))] 0 = some 84.5 := by
    norm_num [truthyLookup, tableLookup]
  have hres : getHistoricalPrice [((0 : ℤ), (2391.50 : ℚ))]
      [((0 : ℤ), (84.5 : ℚ))] initialSpotPriceCache 0 "silver" =
      { price := round2 (2391.50 / 84.5), source := "exact",
        note := "Calculated from exact gold price and gold/silver ratio" } := by
    simp [getHistoricalPrice, effectiveMetal_silver_lit, silverHistorical,
      htg, htr]
  have hprices : (bulkHistoricalEndpoint [((0 : ℤ), (2391.50 : ℚ))]
      [((0 : ℤ), (84.5 : ℚ))] initialSpotPriceCache [some 0] "").prices =
      [((0 : ℤ), round2 (2391.50 / 84.5))] := by
    unfold bulkHistoricalEndpoint
    simp only [effectiveMetal_empty]
    simp [hres, List.take_of_length_le]
  refine ⟨by rw [hlow]; simp, by rw [hlow]; simp, by norm_num [initialSpotPriceCache], ?_, by norm_num⟩
  rw [hprices]
  have : round2 (2391.50 / 84.5) = (28.30 : ℚ) := by
    norm_num [round2, round_eq]
  rw [this]

end StackTracker
